import Mathlib

/-!
Shallow embedding of the go-tickets storage engine
(`internal/storage/storage.go`): the ticket data model, the store
mutation and search operations, the line-oriented bulk importer, and the
persistence / backup-restore layer over an abstracted filesystem.

Modelling conventions:
* Go strings are Lean `String`s; character-level processing (trimming,
  splitting, substring search, the regex strategies) is done on `List Char`
  with structural recursion so that concrete runs reduce in the kernel.
* `time.Time` is an abstract tick (`Nat`); each mutating call receives the
  current tick as a parameter.
* `encoding/json` is modelled semantically: a file either holds a valid
  JSON encoding of a store document (constructor `FileData.doc`, carrying
  the decoded fields) or bytes that do not decode to one
  (`FileData.raw`).  `marshal`/`unmarshal` are the corresponding
  semantic (de)serializers; this reflects that Go's `json.MarshalIndent`
  on this struct cannot fail and round-trips through `json.Unmarshal`.
* The fire-and-forget `CreateBackupUsing` call at the top of every
  mutating operation only writes to the filesystem and never alters the
  in-memory store, and its error is downgraded to a printed warning
  (storage.go lines 125-127, 148-150, 170-172); the store-level
  operations are therefore embedded as pure functions on the store.
-/

namespace GoTickets

/-- Ticket record, from `storage.go` (`Ticket`): `ID`, `Title`, `URL`,
`CreatedAt` (time.Time, modelled as an abstract tick). -/
structure Ticket where
  ID : Nat
  Title : String
  URL : String
  CreatedAt : Nat
deriving DecidableEq, Repr

/-- In-memory store, from `storage.go` (`TicketStorage`): the ordered
ticket sequence and the next id to assign.  The `fs` field is the
filesystem handle, threaded separately in this embedding. -/
structure TicketStorage where
  Tickets : List Ticket
  NextID : Nat
deriving DecidableEq, Repr

/-- Import accounting, from `storage.go` (`ImportResult`). -/
structure ImportResult where
  Added : Nat
  Duplicates : Nat
  Errors : Nat
  ErrorLines : List String
deriving DecidableEq, Repr

/-- `NewTicketStorage` from `storage.go` line 93: empty store, `NextID = 1`. -/
def NewTicketStorage : TicketStorage := { Tickets := [], NextID := 1 }

/-- Go `unicode.IsSpace` restricted to the one-byte whitespace characters
(space, tab, newline, vertical tab, form feed, carriage return); the
higher Unicode space code points never occur in the inputs treated here. -/
def isSpaceGo (c : Char) : Bool :=
  c == ' ' || c == '\t' || c == '\n' || c == '\x0b' || c == '\x0c' || c == '\r'

/-- Go `strings.TrimSpace` on the character list of a string. -/
def trimChars (l : List Char) : List Char :=
  ((l.dropWhile isSpaceGo).reverse.dropWhile isSpaceGo).reverse

/-- Test whether `pat` is an initial segment of `l`. -/
def startsWithChars : List Char → List Char → Bool
  | _, [] => true
  | [], _ :: _ => false
  | c :: cs, d :: ds => c == d && startsWithChars cs ds

/-- Go `strings.Contains` on character lists: `sub` occurs contiguously in `l`. -/
def containsChars : List Char → List Char → Bool
  | [], sub => startsWithChars [] sub
  | c :: cs, sub => startsWithChars (c :: cs) sub || containsChars cs sub

/-- Go `strings.Contains`. -/
def goContains (s sub : String) : Bool := containsChars s.toList sub.toList

/-- Go `strings.ToLower` (ASCII range; `Char.toLower` lowers exactly `A`-`Z`). -/
def goToLower (s : String) : String := ⟨s.toList.map Char.toLower⟩

/-- Go `strings.SplitN(line, sep, 2)`: split around the first occurrence
of `sep`; `none` when `sep` does not occur (Go then returns a single
part, failing the `len(parts) != 2` check in the importer). -/
def splitN2 (sep : List Char) : List Char → Option (List Char × List Char)
  | [] => none
  | c :: rest =>
    if startsWithChars (c :: rest) sep then
      some ([], (c :: rest).drop sep.length)
    else
      match splitN2 sep rest with
      | some (a, b) => some (c :: a, b)
      | none => none

/-- Split a character stream at newline characters (every piece, including
a trailing empty one). -/
def splitLines : List Char → List (List Char)
  | [] => [[]]
  | c :: rest =>
    if c = '\n' then [] :: splitLines rest
    else
      match splitLines rest with
      | [] => [[c]]
      | l :: ls => (c :: l) :: ls

/-- Go `bufio.Scanner` with the default line splitter: the tokens are the
newline-separated pieces, except that a trailing newline does not produce
a final empty token and an empty file produces no tokens. -/
def scanLines (l : List Char) : List (List Char) :=
  let ls := splitLines l
  if ls.getLastD [] = [] then ls.dropLast else ls

/-- `AddTicket` from `storage.go` lines 124-131: assign `ID = NextID`,
stamp the creation tick, append, increment `NextID`.  The backup side
effect touches only the filesystem and is omitted per the module note. -/
def TicketStorage.AddTicket (ts : TicketStorage) (title url : String) (now : Nat) :
    TicketStorage :=
  { ts with
    Tickets := ts.Tickets ++ [{ ID := ts.NextID, Title := title, URL := url, CreatedAt := now }]
    NextID := ts.NextID + 1 }

/-- The per-ticket test of `Search` (`storage.go` line 140): the lowered
title or lowered url contains the lowered query. -/
def matchesQuery (q : String) (t : Ticket) : Bool :=
  goContains (goToLower t.Title) (goToLower q) || goContains (goToLower t.URL) (goToLower q)

/-- The accumulation loop of `Search` (`storage.go` lines 137-143). -/
def searchLoop (q : String) : List Ticket → List Ticket
  | [] => []
  | t :: rest =>
    if goContains (goToLower t.Title) q || goContains (goToLower t.URL) q then
      t :: searchLoop q rest
    else
      searchLoop q rest

/-- `Search` from `storage.go` lines 133-145. -/
def TicketStorage.Search (ts : TicketStorage) (query : String) : List Ticket :=
  if query = "" then ts.Tickets
  else searchLoop (goToLower query) ts.Tickets

/-- The scan-and-remove loop of `DeleteTicket` (`storage.go` lines
151-157): drop the first ticket whose id matches and report whether one
was found. -/
def deleteLoop (id : Nat) : List Ticket → Bool × List Ticket
  | [] => (false, [])
  | t :: rest =>
    if t.ID = id then (true, rest)
    else
      let r := deleteLoop id rest
      (r.1, t :: r.2)

/-- `DeleteTicket` from `storage.go` lines 147-158 (backup side effect
omitted per the module note). -/
def TicketStorage.DeleteTicket (ts : TicketStorage) (id : Nat) : Bool × TicketStorage :=
  let r := deleteLoop id ts.Tickets
  (r.1, { ts with Tickets := r.2 })

/-- `HasTicketWithURL` from `storage.go` lines 160-167: exact,
case-sensitive comparison against every stored url. -/
def TicketStorage.HasTicketWithURL (ts : TicketStorage) (url : String) : Bool :=
  ts.Tickets.any fun t => t.URL == url

/-- One step of the importer's per-line loop (`storage.go` lines
181-206), processing the remaining scanned lines with the running line
number, accumulated result and store. -/
def importLines (now : Nat) :
    List (List Char) → Nat → ImportResult → TicketStorage → ImportResult × TicketStorage
  | [], _, res, ts => (res, ts)
  | l :: rest, lineNumber, res, ts =>
    let n := lineNumber + 1
    let line := trimChars l
    if line = [] then importLines now rest n res ts
    else
      match splitN2 (" - ".toList) line with
      | none =>
        importLines now rest n
          { res with
            Errors := res.Errors + 1
            ErrorLines := res.ErrorLines ++ ["Строка " ++ Nat.repr n ++ ": неверный формат"] }
          ts
      | some (p0, p1) =>
        let url : String := ⟨trimChars p0⟩
        let title : String := ⟨trimChars p1⟩
        if url = "" || title = "" then
          importLines now rest n
            { res with
              Errors := res.Errors + 1
              ErrorLines :=
                res.ErrorLines ++ ["Строка " ++ Nat.repr n ++ ": пустая ссылка или название"] }
            ts
        else if ts.HasTicketWithURL url then
          importLines now rest n { res with Duplicates := res.Duplicates + 1 } ts
        else
          importLines now rest n { res with Added := res.Added + 1 }
            (ts.AddTicket title url now)

/-- `ImportFromFile` from `storage.go` lines 169-211.  The file argument
is the opened file's character content, or `none` when `Open` fails; the
`Bool` in the result is whether an error was returned (the open-failure
path; read-stream failures of a successfully opened local buffer are not
modelled).  Backup side effects omitted per the module note. -/
def TicketStorage.ImportFromFile (ts : TicketStorage) (file : Option (List Char)) (now : Nat) :
    ImportResult × TicketStorage × Bool :=
  match file with
  | none => ({ Added := 0, Duplicates := 0, Errors := 0, ErrorLines := [] }, ts, true)
  | some contents =>
    let r := importLines now (scanLines contents) 0
      { Added := 0, Duplicates := 0, Errors := 0, ErrorLines := [] } ts
    (r.1, r.2, false)

/-- Strategy 1 of `ExtractTicketNumber` (`storage.go` line 52), the Go
regexp `[A-Z]+-(\d+)`: at the leftmost viable start, a maximal run of
uppercase letters followed by a hyphen and a nonempty digit run; the
greedy capture is that maximal digit run.  (Backtracking the `[A-Z]+`
below its maximal run cannot help, since the character after a shorter
run is another uppercase letter, not the required hyphen.) -/
def matchKeyPattern : List Char → Option (List Char)
  | [] => none
  | c :: rest =>
    if c.isUpper then
      match (c :: rest).dropWhile Char.isUpper with
      | '-' :: ds =>
        let digits := ds.takeWhile Char.isDigit
        if digits = [] then matchKeyPattern rest else some digits
      | _ => matchKeyPattern rest
    else matchKeyPattern rest

/-- Whether a digit run that ends at this suffix satisfies the regex
tail `(?:[/?#].*)?$`: either the string ends here or the next character
is one of `/`, `?`, `#`. -/
def tailOk : List Char → Bool
  | [] => true
  | r :: _ => r == '/' || r == '?' || r == '#'

/-- Match attempt of strategy 2 (`storage.go` line 56, regexp
`.*[^/]/(\d+)(?:[/?#].*)?$`) at a fixed position: a non-slash character,
a slash, a nonempty maximal digit run, then `tailOk`. -/
def segMatchAt : List Char → Option (List Char)
  | c :: '/' :: ds =>
    if c == '/' then none
    else
      let digits := ds.takeWhile Char.isDigit
      if digits = [] then none
      else if tailOk (ds.dropWhile Char.isDigit) then some digits
      else none
  | _ => none

/-- Strategy 2: the greedy `.*` means the match uses the rightmost
position at which `segMatchAt` succeeds. -/
def lastPathNumber : List Char → Option (List Char)
  | [] => none
  | c :: rest =>
    match lastPathNumber rest with
    | some d => some d
    | none => segMatchAt (c :: rest)

/-- Match attempt of strategy 3 (`storage.go` line 60, regexp
`/(\d+)(?:[/?#].*)?$`) at a fixed position: a slash, a nonempty maximal
digit run, then `tailOk`. -/
def slashMatchAt : List Char → Option (List Char)
  | '/' :: ds =>
    let digits := ds.takeWhile Char.isDigit
    if digits = [] then none
    else if tailOk (ds.dropWhile Char.isDigit) then some digits
    else none
  | _ => none

/-- Strategy 3: leftmost position at which `slashMatchAt` succeeds. -/
def firstSlashNumber : List Char → Option (List Char)
  | [] => none
  | c :: rest =>
    match slashMatchAt (c :: rest) with
    | some d => some d
    | none => firstSlashNumber rest

/-- Drop the keyword alternation `(?:issue|ticket|task)` of strategy 4
(`storage.go` line 64) from the front of the list, trying the
alternatives in the regex's order. -/
def afterKeyword (l : List Char) : Option (List Char) :=
  if startsWithChars l ("issue".toList) then some (l.drop 5)
  else if startsWithChars l ("ticket".toList) then some (l.drop 6)
  else if startsWithChars l ("task".toList) then some (l.drop 4)
  else none

/-- The `[/=](\d+)` tail of strategy 4: a slash or equals sign followed
by a nonempty digit run (greedy capture = maximal run). -/
def sepDigits : List Char → Option (List Char)
  | c :: ds =>
    if c == '/' || c == '=' then
      let digits := ds.takeWhile Char.isDigit
      if digits = [] then none else some digits
    else none
  | [] => none

/-- Match attempt of strategy 4 at a fixed position: keyword, optional
greedy `s`, separator, digits. -/
def keywordMatchAt (l : List Char) : Option (List Char) :=
  match afterKeyword l with
  | none => none
  | some r =>
    match r with
    | 's' :: r2 =>
      match sepDigits r2 with
      | some d => some d
      | none => sepDigits ('s' :: r2)
    | _ => sepDigits r

/-- Strategy 4 (`storage.go` lines 64-67), applied by the source to the
lowercased URL: leftmost position where `keywordMatchAt` succeeds. -/
def findKeywordNumber : List Char → Option (List Char)
  | [] => none
  | c :: rest =>
    match keywordMatchAt (c :: rest) with
    | some d => some d
    | none => findKeywordNumber rest

/-- Strategy 5 (`storage.go` line 68, regexp `(\d{6,})`): the maximal
digit run at the leftmost position from which at least six digits run. -/
def findLongDigits : List Char → Option (List Char)
  | [] => none
  | c :: rest =>
    let run := (c :: rest).takeWhile Char.isDigit
    if 6 ≤ run.length then some run
    else findLongDigits rest

/-- Go `fmt.Sprintf("%06d", n)` for a natural number. -/
def pad6 (n : Nat) : String :=
  ⟨List.replicate (6 - (Nat.repr n).length) '0' ++ (Nat.repr n).toList⟩

/-- `ExtractTicketNumber` from `storage.go` lines 51-73: the five URL
strategies in order, first match wins, else the ticket's own id
zero-padded to six digits. -/
def Ticket.ExtractTicketNumber (t : Ticket) : String :=
  let u := t.URL.toList
  match matchKeyPattern u with
  | some d => ⟨d⟩
  | none =>
    match lastPathNumber u with
    | some d => ⟨d⟩
    | none =>
      match firstSlashNumber u with
      | some d => ⟨d⟩
      | none =>
        match findKeywordNumber (u.map Char.toLower) with
        | some d => ⟨d⟩
        | none =>
          match findLongDigits u with
          | some d => ⟨d⟩
          | none => pad6 t.ID

/-- Contents of a file, with JSON modelled semantically per the module
note: `doc tickets nextId` is a valid JSON encoding of the store document
(the struct `json.Unmarshal` would fill), `raw s` is any byte content
that does not decode to one. -/
inductive FileData where
  | doc (tickets : List Ticket) (nextId : Nat) : FileData
  | raw (s : String) : FileData
deriving DecidableEq, Repr

/-- `json.MarshalIndent` of a store (`storage.go` line 224): the valid
document carrying the store's exported fields. -/
def marshal (ts : TicketStorage) : FileData := .doc ts.Tickets ts.NextID

/-- `json.Unmarshal` into a `TicketStorage` (`storage.go` lines 246,
293): succeeds exactly on valid documents. -/
def unmarshal : FileData → Option (List Ticket × Nat)
  | .doc tickets nextId => some (tickets, nextId)
  | .raw _ => none

/-- Filesystem state seen through the `FileSystem` interface
(`storage.go` lines 15-23): the home directory (or a resolution error),
the files present (newest binding first), and injectable per-path read
and write faults plus a directory-creation fault, mirroring the
per-operation error injection of the test double. -/
structure FS where
  homeDir : Option String
  files : List (String × FileData)
  readErr : String → Bool
  writeErr : String → Bool
  mkdirErr : Bool

/-- `ReadFile`: `none` when the file is absent or the path has an
injected read fault (the load path treats every read error alike). -/
def FS.ReadFile (fs : FS) (path : String) : Option FileData :=
  if fs.readErr path then none else fs.files.lookup path

/-- `Stat` existence test, as used with `os.IsNotExist`. -/
def FS.statExists (fs : FS) (path : String) : Bool :=
  (fs.files.lookup path).isSome

/-- `WriteFile`: fails on an injected write fault, else creates or
truncates the file; a successfully written file is present and readable. -/
def FS.WriteFile (fs : FS) (path : String) (data : FileData) : Option FS :=
  if fs.writeErr path then none
  else
    some { fs with
           files := (path, data) :: fs.files
           readErr := fun p => if p = path then false else fs.readErr p }

/-- `filepath.Join` of two segments. -/
def joinPath (a b : String) : String := a ++ "/" ++ b

/-- The persistence directory `<home>/.gotickets`. -/
def dataDir (home : String) : String := joinPath home ".gotickets"

/-- The primary file `<home>/.gotickets/tickets.json`. -/
def ticketsPath (home : String) : String := joinPath (dataDir home) "tickets.json"

/-- `LoadTicketsFromPathWithFS` from `storage.go` lines 240-256: any read
failure or parse failure yields a fresh store with `NextID = 1` and no
error; a parsed document with `NextID == 0` is coerced to 1. -/
def LoadTicketsFromPathWithFS (fs : FS) (filePath : String) :
    TicketStorage × Option String :=
  match fs.ReadFile filePath with
  | none => ({ Tickets := [], NextID := 1 }, none)
  | some data =>
    match unmarshal data with
    | none => ({ Tickets := [], NextID := 1 }, none)
    | some (tickets, nextId) =>
      ({ Tickets := tickets, NextID := if nextId = 0 then 1 else nextId }, none)

/-- `LoadTicketsWithFS` from `storage.go` lines 231-238: a home-directory
resolution failure also yields a fresh store with no error. -/
def LoadTicketsWithFS (fs : FS) : TicketStorage × Option String :=
  match fs.homeDir with
  | none => ({ Tickets := [], NextID := 1 }, none)
  | some home => LoadTicketsFromPathWithFS fs (ticketsPath home)

/-- `Save` from `storage.go` lines 213-229: resolve home, ensure the
data directory, marshal the store, write `tickets.json`. -/
def TicketStorage.Save (ts : TicketStorage) (fs : FS) : Except String FS :=
  match fs.homeDir with
  | none => .error "failed to resolve home directory"
  | some home =>
    if fs.mkdirErr then .error "failed to create data directory"
    else
      match fs.WriteFile (ticketsPath home) (marshal ts) with
      | none => .error "failed to write tickets file"
      | some fs2 => .ok fs2

/-- `RestoreFromBackupUsing` from `storage.go` lines 277-300: missing
backup, unreadable backup and corrupted backup each abort with an error
before the primary file is touched; a validated backup's bytes are
written verbatim over the primary file. -/
def RestoreFromBackupUsing (fs : FS) (backupName : String) : Option String × FS :=
  match fs.homeDir with
  | none => (some "failed to resolve home directory", fs)
  | some home =>
    let backupPath := joinPath (dataDir home) backupName
    if ¬ fs.statExists backupPath then
      (some ("backup file not found: " ++ backupName), fs)
    else
      match fs.ReadFile backupPath with
      | none => (some "failed to read backup file", fs)
      | some data =>
        match unmarshal data with
        | none => (some "backup file is corrupted", fs)
        | some _ =>
          match fs.WriteFile (ticketsPath home) data with
          | none => (some "failed to restore from backup", fs)
          | some fs2 => (none, fs2)

/-- Run a sequence of `AddTicket` calls, each given by its title, url and
creation tick. -/
def applyAdds (ts : TicketStorage) : List (String × String × Nat) → TicketStorage
  | [] => ts
  | c :: rest => applyAdds (ts.AddTicket c.1 c.2.1 c.2.2) rest

/-- Pairwise distinctness of the stored urls (the store invariant of
spec section 3, case-sensitive exact comparison). -/
def urlsDistinct (l : List Ticket) : Prop :=
  l.Pairwise fun a b => a.URL ≠ b.URL

/-- Stores reachable through the program's mutation API from a newly
constructed store.  Direct `AddTicket` calls carry `url ≠ ""` because
both call sites pass a trimmed, checked-non-empty url: the UI submit
handlers (`internal/ui/handlers.go`, `handleURLSubmit` rejects an empty
trimmed url before storing it as `tempURL`, `handleTitleSubmit` passes
that `tempURL`) and the importer (`storage.go` lines 193-199 rejects an
empty trimmed url before `AddTicket`). -/
inductive Reachable : TicketStorage → Prop
  | new : Reachable NewTicketStorage
  | add (ts : TicketStorage) (title url : String) (now : Nat) :
      Reachable ts → url ≠ "" → Reachable (ts.AddTicket title url now)
  | del (ts : TicketStorage) (id : Nat) :
      Reachable ts → Reachable (ts.DeleteTicket id).2
  | imp (ts : TicketStorage) (file : Option (List Char)) (now : Nat) :
      Reachable ts → Reachable (ts.ImportFromFile file now).2.1

/-- The seven-line sample import text of spec section 8. -/
def sampleImport : List Char :=
  ("https://example.com/1 - First Ticket\n" ++
   "https://example.com/2 - Second Ticket\n" ++
   "https://example.com/3 - Third Ticket\n" ++
   "https://example.com/1 - Duplicate First Ticket\n" ++
   "invalid line without dash\n" ++
   " - Empty URL\n" ++
   "https://example.com/4 - ").toList

/-- A fault-free filesystem with a resolvable home directory and no files. -/
def fsEmptyHome : FS :=
  { homeDir := some "/home/user"
    files := []
    readErr := fun _ => false
    writeErr := fun _ => false
    mkdirErr := false }

/-- The primary-file path under the example home directory. -/
def primaryPath : String := ticketsPath "/home/user"

/-- A filesystem whose primary file holds undecodable bytes. -/
def fsRawPrimary : FS := { fsEmptyHome with files := [(primaryPath, .raw "not json")] }

/-- A filesystem whose primary file holds a document with `next_id` 0. -/
def fsZeroPrimary : FS := { fsEmptyHome with files := [(primaryPath, .doc [] 0)] }

/-- An example backup file name. -/
def backupName : String := "tickets_backup_2024-01-01_00-00-00.json"

/-- The example backup file's path. -/
def backupPath : String := joinPath (dataDir "/home/user") backupName

/-- A filesystem whose backup file holds undecodable bytes. -/
def fsRawBackup : FS := { fsEmptyHome with files := [(backupPath, .raw "junk")] }

/-- A filesystem whose backup file holds a valid document. -/
def fsDocBackup : FS := { fsEmptyHome with files := [(backupPath, .doc [] 5)] }

/-- An example ticket. -/
def ticketA : Ticket := { ID := 1, Title := "a", URL := "https://e.com/a", CreatedAt := 0 }

/-- A second example ticket. -/
def ticketB : Ticket := { ID := 2, Title := "b", URL := "https://e.com/b", CreatedAt := 0 }

/-- An example store holding `ticketA` and `ticketB`. -/
def storeAB : TicketStorage := { Tickets := [ticketA, ticketB], NextID := 3 }

/-- The filesystem produced by saving `storeAB` onto `fsEmptyHome`. -/
def fsAfterSaveAB : FS := (storeAB.Save fsEmptyHome).toOption.getD fsEmptyHome

/-- A store whose `NextID` is 0, constructible as a raw value but not
through the API (`NewTicketStorage` starts at 1, load coerces 0 to 1,
`AddTicket` increments). -/
def storeZero : TicketStorage := { Tickets := [], NextID := 0 }

/-- The filesystem produced by saving `storeZero` onto `fsEmptyHome`. -/
def fsAfterSaveZero : FS := (storeZero.Save fsEmptyHome).toOption.getD fsEmptyHome

/-- C1: importing the seven-line sample text of spec section 8 into an
empty store returns `added = 3`, `duplicates = 1`, `errors = 3` and no
error, and the store afterwards holds exactly the three tickets titled
"First Ticket", "Second Ticket", "Third Ticket" in that order. -/
theorem importFromFile_sample_spec8 :
    (NewTicketStorage.ImportFromFile (some sampleImport) 0).1.Added = 3 ∧
    (NewTicketStorage.ImportFromFile (some sampleImport) 0).1.Duplicates = 1 ∧
    (NewTicketStorage.ImportFromFile (some sampleImport) 0).1.Errors = 3 ∧
    (NewTicketStorage.ImportFromFile (some sampleImport) 0).2.2 = false ∧
    (NewTicketStorage.ImportFromFile (some sampleImport) 0).2.1.Tickets.map Ticket.Title
      = ["First Ticket", "Second Ticket", "Third Ticket"] := by
  decide

/-- C10: `ExtractTicketNumber` yields "123" for the GitHub issue URL,
"789" for the Jira browse URL, and the zero-padded id "000001" for a
ticket with id 1 whose URL matches none of the five strategies. -/
theorem extractTicketNumber_examples :
    (Ticket.mk 1 "t" "https://github.com/user/repo/issues/123" 0).ExtractTicketNumber
      = "123" ∧
    (Ticket.mk 2 "t" "https://company.atlassian.net/browse/PROJ-789" 0).ExtractTicketNumber
      = "789" ∧
    (Ticket.mk 1 "t" "https://example.com/about" 0).ExtractTicketNumber = "000001" := by
  decide

/-- Invariant of `applyAdds`: when ids run 1.. in order and `NextID` is
one past the length, each `AddTicket` extends both in lockstep. -/
theorem applyAdds_invariant (calls : List (String × String × Nat)) :
    ∀ ts : TicketStorage,
      ts.NextID = ts.Tickets.length + 1 →
      (∀ i (h : i < ts.Tickets.length), (ts.Tickets.get ⟨i, h⟩).ID = i + 1) →
      (applyAdds ts calls).NextID = (applyAdds ts calls).Tickets.length + 1 ∧
      (applyAdds ts calls).Tickets.length = ts.Tickets.length + calls.length ∧
      ∀ i (h : i < (applyAdds ts calls).Tickets.length),
        ((applyAdds ts calls).Tickets.get ⟨i, h⟩).ID = i + 1 := by
  induction calls with
  | nil =>
    intro ts h1 h2
    exact ⟨h1, by simp [applyAdds], by simpa [applyAdds] using h2⟩
  | cons c rest ih =>
    intro ts h1 h2
    have hstep : ∀ i (h : i < (ts.AddTicket c.1 c.2.1 c.2.2).Tickets.length),
        ((ts.AddTicket c.1 c.2.1 c.2.2).Tickets.get ⟨i, h⟩).ID = i + 1 := by
      intro i h
      simp only [TicketStorage.AddTicket, List.length_append, List.length_cons,
        List.length_nil] at h
      simp only [TicketStorage.AddTicket, List.get_eq_getElem, List.getElem_append]
      by_cases hi : i < ts.Tickets.length
      · simpa [hi] using h2 i hi
      · have hieq : i = ts.Tickets.length := by omega
        simp [hi, hieq, h1]
    have hlen : (ts.AddTicket c.1 c.2.1 c.2.2).NextID
        = (ts.AddTicket c.1 c.2.1 c.2.2).Tickets.length + 1 := by
      simp [TicketStorage.AddTicket, h1]
    have := ih (ts.AddTicket c.1 c.2.1 c.2.2) hlen hstep
    refine ⟨this.1, ?_, this.2.2⟩
    have hl : (ts.AddTicket c.1 c.2.1 c.2.2).Tickets.length = ts.Tickets.length + 1 := by
      simp [TicketStorage.AddTicket]
    have h21 := this.2.1
    simp only [applyAdds, List.length_cons]
    omega

/-- C3: from a newly constructed store, after any sequence of `AddTicket`
calls the `NextID` is 1 plus the number of calls, there are exactly that
many tickets, and the ticket at position `i` (0-based) carries id `i + 1`
(each ticket's id is its 1-based creation order). -/
theorem applyAdds_ids_sequential (calls : List (String × String × Nat)) :
    (applyAdds NewTicketStorage calls).NextID = 1 + calls.length ∧
    (applyAdds NewTicketStorage calls).Tickets.length = calls.length ∧
    ∀ i (h : i < (applyAdds NewTicketStorage calls).Tickets.length),
      ((applyAdds NewTicketStorage calls).Tickets.get ⟨i, h⟩).ID = i + 1 := by
  have h := applyAdds_invariant calls NewTicketStorage rfl
    (by intro i h; simp [NewTicketStorage] at h)
  have h0 : NewTicketStorage.Tickets.length = 0 := rfl
  have h1 := h.1
  have h21 := h.2.1
  exact ⟨by omega, by omega, h.2.2⟩

/-- Witness for C3 at a concrete two-call sequence. -/
theorem applyAdds_ids_sequential_witness :
    (applyAdds NewTicketStorage [("a", "u", 0), ("b", "v", 1)]).NextID = 1 + 2 ∧
    ((applyAdds NewTicketStorage [("a", "u", 0), ("b", "v", 1)]).Tickets.get
      ⟨1, by decide⟩).ID = 1 + 1 :=
  ⟨(applyAdds_ids_sequential [("a", "u", 0), ("b", "v", 1)]).1,
   (applyAdds_ids_sequential [("a", "u", 0), ("b", "v", 1)]).2.2 1 (by decide)⟩

/-- When no element matches, the delete loop reports `false` and returns
the list unchanged. -/
theorem deleteLoop_not_found (id : Nat) :
    ∀ l : List Ticket, (∀ t ∈ l, t.ID ≠ id) → deleteLoop id l = (false, l) := by
  intro l
  induction l with
  | nil => intro _; rfl
  | cons x rest ih =>
    intro h
    have hx : x.ID ≠ id := h x (List.mem_cons_self x rest)
    have hr : deleteLoop id rest = (false, rest) :=
      ih fun t ht => h t (List.mem_cons_of_mem x ht)
    simp [deleteLoop, hx, hr]

/-- When some element matches, the delete loop reports `true` and drops
exactly the first matching element, keeping every other element in
order. -/
theorem deleteLoop_found (id : Nat) :
    ∀ l : List Ticket, (∃ t ∈ l, t.ID = id) →
      deleteLoop id l =
        (true, l.takeWhile (fun t => t.ID != id) ++ (l.dropWhile (fun t => t.ID != id)).tail) := by
  intro l
  induction l with
  | nil => rintro ⟨t, ht, _⟩; exact absurd ht (List.not_mem_nil t)
  | cons x rest ih =>
    rintro ⟨t, ht, hid⟩
    by_cases hx : x.ID = id
    · simp [deleteLoop, hx, List.takeWhile, List.dropWhile]
    · have hne : t ∈ rest := by
        rcases List.mem_cons.mp ht with h | h
        · exact absurd (h ▸ hid) hx
        · exact h
      have hr := ih ⟨t, hne, hid⟩
      have hxb : (x.ID != id) = true := by simpa using hx
      simp [deleteLoop, hx, hr, List.takeWhile, List.dropWhile, hxb]

/-- Membership in the delete loop's result implies membership in the
input list. -/
theorem deleteLoop_mem (id : Nat) :
    ∀ l : List Ticket, ∀ t ∈ (deleteLoop id l).2, t ∈ l := by
  intro l
  induction l with
  | nil => intro t ht; simp [deleteLoop] at ht
  | cons x rest ih =>
    intro t ht
    by_cases hx : x.ID = id
    · simp only [deleteLoop, if_pos hx] at ht
      exact List.mem_cons_of_mem x ht
    · simp only [deleteLoop, if_neg hx] at ht
      rcases List.mem_cons.mp ht with h | h
      · exact h ▸ List.mem_cons_self x rest
      · exact List.mem_cons_of_mem x (ih t h)

/-- Under pairwise-distinct ids, no element of the delete loop's result
still carries the deleted id, provided a match was present. -/
theorem deleteLoop_unique_no_match (id : Nat) :
    ∀ l : List Ticket, l.Pairwise (fun a b => a.ID ≠ b.ID) → (∃ t ∈ l, t.ID = id) →
      ∀ t ∈ (deleteLoop id l).2, t.ID ≠ id := by
  intro l
  induction l with
  | nil => rintro _ ⟨t, ht, _⟩; exact absurd ht (List.not_mem_nil t)
  | cons x rest ih =>
    rintro hp ⟨t, ht, hid⟩ u hu
    rcases List.pairwise_cons.mp hp with ⟨hx, hrest⟩
    by_cases hxid : x.ID = id
    · simp only [deleteLoop, if_pos hxid] at hu
      have := hx u hu
      omega
    · simp only [deleteLoop, if_neg hxid] at hu
      have hne : t ∈ rest := by
        rcases List.mem_cons.mp ht with h | h
        · exact absurd (h ▸ hid) hxid
        · exact h
      rcases List.mem_cons.mp hu with h | h
      · exact h ▸ hxid
      · exact ih hrest ⟨t, hne, hid⟩ u h

/-- C4: deleting a present id removes exactly the first matching ticket,
preserving the order of the rest, and returns `true`; deleting an absent
id leaves the store unchanged and returns `false`; on a store with
pairwise-distinct ids, deleting the same id twice returns `true` then
`false`. -/
theorem deleteTicket_spec (ts : TicketStorage) (id : Nat) :
    ((∃ t ∈ ts.Tickets, t.ID = id) →
      (ts.DeleteTicket id).1 = true ∧
      (ts.DeleteTicket id).2.Tickets =
        ts.Tickets.takeWhile (fun t => t.ID != id) ++
          (ts.Tickets.dropWhile (fun t => t.ID != id)).tail) ∧
    ((∀ t ∈ ts.Tickets, t.ID ≠ id) →
      (ts.DeleteTicket id).1 = false ∧ (ts.DeleteTicket id).2 = ts) ∧
    (ts.Tickets.Pairwise (fun a b => a.ID ≠ b.ID) → (∃ t ∈ ts.Tickets, t.ID = id) →
      (ts.DeleteTicket id).1 = true ∧ ((ts.DeleteTicket id).2.DeleteTicket id).1 = false) := by
  refine ⟨?_, ?_, ?_⟩
  · intro h
    have := deleteLoop_found id ts.Tickets h
    constructor
    · simp [TicketStorage.DeleteTicket, this]
    · simp [TicketStorage.DeleteTicket, this]
  · intro h
    have := deleteLoop_not_found id ts.Tickets h
    constructor
    · simp [TicketStorage.DeleteTicket, this]
    · simp [TicketStorage.DeleteTicket, this]
  · intro hp h
    have h1 := deleteLoop_found id ts.Tickets h
    have h2 := deleteLoop_unique_no_match id ts.Tickets hp h
    constructor
    · simp [TicketStorage.DeleteTicket, h1]
    · have := deleteLoop_not_found id (deleteLoop id ts.Tickets).2 h2
      simp [TicketStorage.DeleteTicket, this]

/-- Witness for C4 on a concrete two-ticket store: deleting id 1 twice
returns `true` then `false`, and deleting the absent id 7 changes
nothing. -/
theorem deleteTicket_spec_witness :
    ((storeAB.DeleteTicket 1).1 = true ∧
      ((storeAB.DeleteTicket 1).2.DeleteTicket 1).1 = false) ∧
    ((storeAB.DeleteTicket 7).1 = false ∧ (storeAB.DeleteTicket 7).2 = storeAB) ∧
    (storeAB.DeleteTicket 1).2.Tickets =
      storeAB.Tickets.takeWhile (fun t => t.ID != 1) ++
        (storeAB.Tickets.dropWhile (fun t => t.ID != 1)).tail :=
  ⟨(deleteTicket_spec storeAB 1).2.2 (by decide) ⟨ticketA, by decide, by decide⟩,
   (deleteTicket_spec storeAB 7).2.1 (by decide),
   ((deleteTicket_spec storeAB 1).1 ⟨ticketA, by decide, by decide⟩).2⟩

/-- The empty pattern occurs in every string (as in Go's
`strings.Contains`). -/
theorem containsChars_nil : ∀ l : List Char, containsChars l [] = true := by
  intro l
  cases l with
  | nil => rfl
  | cons c cs => simp [containsChars, startsWithChars]

/-- The accumulation loop of `Search` is a filter by the per-ticket
match test. -/
theorem searchLoop_eq_filter (q : String) :
    ∀ l : List Ticket,
      searchLoop q l =
        l.filter fun t => goContains (goToLower t.Title) q || goContains (goToLower t.URL) q := by
  intro l
  induction l with
  | nil => rfl
  | cons x rest ih =>
    by_cases hx : (goContains (goToLower x.Title) q || goContains (goToLower x.URL) q) = true
    · simp [searchLoop, List.filter, hx, ih]
    · simp only [searchLoop, List.filter, hx]
      simp only [Bool.not_eq_true] at hx
      simp [hx, ih]

/-- C5: `Search ""` returns the full ticket sequence unchanged; for a
non-empty query, `Search` returns, in original order, exactly the
tickets whose title or url contains the query case-insensitively; and
when no ticket matches, the result is empty. -/
theorem search_spec (ts : TicketStorage) (q : String) :
    ts.Search "" = ts.Tickets ∧
    (q ≠ "" → ts.Search q = ts.Tickets.filter (matchesQuery q)) ∧
    ((∀ t ∈ ts.Tickets, matchesQuery q t = false) → ts.Search q = []) := by
  have hmatch : (fun t => goContains (goToLower t.Title) (goToLower q)
      || goContains (goToLower t.URL) (goToLower q)) = matchesQuery q := rfl
  refine ⟨by simp [TicketStorage.Search], ?_, ?_⟩
  · intro hq
    simp only [TicketStorage.Search, if_neg hq]
    rw [searchLoop_eq_filter, hmatch]
  · intro hnone
    by_cases hq : q = ""
    · subst hq
      cases hts : ts.Tickets with
      | nil => simp [TicketStorage.Search, hts]
      | cons x rest =>
        have hx := hnone x (by rw [hts]; exact List.mem_cons_self x rest)
        have : matchesQuery "" x = true := by
          simp [matchesQuery, goContains, goToLower, containsChars_nil]
        rw [this] at hx
        exact absurd hx (by simp)
    · simp only [TicketStorage.Search, if_neg hq]
      rw [searchLoop_eq_filter, hmatch]
      exact List.filter_eq_nil_iff.mpr fun a ha => by simp [hnone a ha]

/-- Witness for C5 on a concrete store: the empty query returns both
tickets, a matching query filters case-insensitively, and an absent term
returns nothing. -/
theorem search_spec_witness :
    storeAB.Search "" = storeAB.Tickets ∧
    storeAB.Search "E.COM/A" = storeAB.Tickets.filter (matchesQuery "E.COM/A") ∧
    storeAB.Search "zzz" = [] :=
  ⟨(search_spec storeAB "").1,
   (search_spec storeAB "E.COM/A").2.1 (by decide),
   (search_spec storeAB "zzz").2.2 (by decide)⟩

/-- `HasTicketWithURL` is the existence of a stored ticket with exactly
that url. -/
theorem hasTicketWithURL_iff (ts : TicketStorage) (url : String) :
    ts.HasTicketWithURL url = true ↔ ∃ t ∈ ts.Tickets, t.URL = url := by
  simp [TicketStorage.HasTicketWithURL, List.any_eq_true]

/-- `AddTicket` with a url absent from the store preserves pairwise
distinctness of urls. -/
theorem addTicket_urlsDistinct (ts : TicketStorage) (title url : String) (now : Nat)
    (hd : urlsDistinct ts.Tickets) (habs : ts.HasTicketWithURL url = false) :
    urlsDistinct (ts.AddTicket title url now).Tickets := by
  have habs2 : ∀ t ∈ ts.Tickets, t.URL ≠ url := by
    intro t ht hc
    have : ts.HasTicketWithURL url = true := (hasTicketWithURL_iff ts url).mpr ⟨t, ht, hc⟩
    rw [this] at habs
    exact absurd habs (by simp)
  refine List.pairwise_append.mpr ⟨hd, List.pairwise_singleton _ _, ?_⟩
  intro a ha b hb
  have hb2 : b = { ID := ts.NextID, Title := title, URL := url, CreatedAt := now } := by
    simpa using hb
  rw [hb2]
  exact habs2 a ha

/-- The importer's per-line loop preserves pairwise distinctness of
urls: every add is guarded by the `HasTicketWithURL` duplicate check. -/
theorem importLines_urlsDistinct (now : Nat) :
    ∀ (lines : List (List Char)) (n : Nat) (res : ImportResult) (ts : TicketStorage),
      urlsDistinct ts.Tickets → urlsDistinct (importLines now lines n res ts).2.Tickets := by
  intro lines
  induction lines with
  | nil => intro n res ts h; exact h
  | cons l rest ih =>
    intro n res ts h
    simp only [importLines]
    by_cases hblank : trimChars l = []
    · simp only [if_pos hblank]; exact ih _ _ _ h
    · simp only [if_neg hblank]
      cases hsplit : splitN2 (" - ".toList) (trimChars l) with
      | none => exact ih _ _ _ h
      | some p =>
        by_cases hempty : (⟨trimChars p.1⟩ : String) = "" ∨ (⟨trimChars p.2⟩ : String) = ""
        · have : ((⟨trimChars p.1⟩ : String) = "" || (⟨trimChars p.2⟩ : String) = "") = true := by
            simpa using hempty
          simp only [this]
          simp only [Bool.or_eq_true, decide_eq_true_eq] at this ⊢
          exact ih _ _ _ h
        · have hor : ((⟨trimChars p.1⟩ : String) = "" || (⟨trimChars p.2⟩ : String) = "") = false := by
            simpa using hempty
          simp only [hor]
          cases hdup : ts.HasTicketWithURL ⟨trimChars p.1⟩ with
          | true => simp only [Bool.false_eq_true, if_false, hdup, if_true]; exact ih _ _ _ h
          | false =>
            simp only [Bool.false_eq_true, if_false, hdup]
            exact ih _ _ _ (addTicket_urlsDistinct ts _ _ now h hdup)

/-- C8: for every store whose tickets carry pairwise distinct urls and
every import input (including open failures and files repeating a url),
the store after `ImportFromFile` still has pairwise distinct urls. -/
theorem importFromFile_preserves_urlsDistinct (ts : TicketStorage)
    (file : Option (List Char)) (now : Nat) (h : urlsDistinct ts.Tickets) :
    urlsDistinct (ts.ImportFromFile file now).2.1.Tickets := by
  cases file with
  | none => exact h
  | some contents => exact importLines_urlsDistinct now (scanLines contents) 0 _ ts h

/-- Witness for C8: importing a file that repeats an existing url and a
fresh url twice keeps the urls pairwise distinct. -/
theorem importFromFile_preserves_urlsDistinct_witness :
    urlsDistinct (storeAB.ImportFromFile
      (some ("https://e.com/a - dup\nhttps://e.com/c - new\nhttps://e.com/c - again").toList)
      0).2.1.Tickets :=
  importFromFile_preserves_urlsDistinct storeAB
    (some ("https://e.com/a - dup\nhttps://e.com/c - new\nhttps://e.com/c - again").toList)
    0 (by simp [urlsDistinct, storeAB, ticketA, ticketB])

/-- `AddTicket` with a non-empty url keeps every stored url non-empty. -/
theorem addTicket_urls_nonempty (ts : TicketStorage) (title url : String) (now : Nat)
    (h : ∀ t ∈ ts.Tickets, t.URL ≠ "") (hu : url ≠ "") :
    ∀ t ∈ (ts.AddTicket title url now).Tickets, t.URL ≠ "" := by
  intro t ht
  simp only [TicketStorage.AddTicket, List.mem_append, List.mem_singleton] at ht
  rcases ht with h1 | h2
  · exact h t h1
  · rw [h2]; exact hu

/-- The importer's per-line loop keeps every stored url non-empty: each
added url passed the importer's empty-url check. -/
theorem importLines_urls_nonempty (now : Nat) :
    ∀ (lines : List (List Char)) (n : Nat) (res : ImportResult) (ts : TicketStorage),
      (∀ t ∈ ts.Tickets, t.URL ≠ "") →
      ∀ t ∈ (importLines now lines n res ts).2.Tickets, t.URL ≠ "" := by
  intro lines
  induction lines with
  | nil => intro n res ts h; exact h
  | cons l rest ih =>
    intro n res ts h
    simp only [importLines]
    by_cases hblank : trimChars l = []
    · simp only [if_pos hblank]; exact ih _ _ _ h
    · simp only [if_neg hblank]
      cases hsplit : splitN2 (" - ".toList) (trimChars l) with
      | none => exact ih _ _ _ h
      | some p =>
        by_cases hempty : (⟨trimChars p.1⟩ : String) = "" ∨ (⟨trimChars p.2⟩ : String) = ""
        · have hor : ((⟨trimChars p.1⟩ : String) = "" || (⟨trimChars p.2⟩ : String) = "") = true := by
            simpa using hempty
          simp only [hor]
          exact ih _ _ _ h
        · have hor : ((⟨trimChars p.1⟩ : String) = "" || (⟨trimChars p.2⟩ : String) = "") = false := by
            simpa using hempty
          simp only [hor]
          have hu : (⟨trimChars p.1⟩ : String) ≠ "" := by
            intro hc
            exact hempty (Or.inl hc)
          cases hdup : ts.HasTicketWithURL ⟨trimChars p.1⟩ with
          | true => simp only [Bool.false_eq_true, if_false, hdup, if_true]; exact ih _ _ _ h
          | false =>
            simp only [Bool.false_eq_true, if_false, hdup]
            exact ih _ _ _ (addTicket_urls_nonempty ts _ _ now h hu)

/-- Every ticket of a reachable store has a non-empty url. -/
theorem reachable_urls_nonempty (ts : TicketStorage) (hr : Reachable ts) :
    ∀ t ∈ ts.Tickets, t.URL ≠ "" := by
  induction hr with
  | new => intro t ht; exact absurd ht (List.not_mem_nil t)
  | add ts0 title url now _ hu ih => exact addTicket_urls_nonempty ts0 title url now ih hu
  | del ts0 id _ ih =>
    intro t ht
    exact ih t (deleteLoop_mem id ts0.Tickets t ht)
  | imp ts0 file now _ ih =>
    cases file with
    | none => exact ih
    | some contents => exact importLines_urls_nonempty now (scanLines contents) 0 _ ts0 ih

/-- C9: `HasTicketWithURL url` is true exactly when some stored ticket's
url equals `url` by exact, case-sensitive comparison; and on every store
reachable through the program's creation paths (which all reject an
empty trimmed url), `HasTicketWithURL ""` is false. -/
theorem hasTicketWithURL_spec (ts : TicketStorage) (url : String) :
    (ts.HasTicketWithURL url = true ↔ ∃ t ∈ ts.Tickets, t.URL = url) ∧
    (Reachable ts → ts.HasTicketWithURL "" = false) := by
  refine ⟨hasTicketWithURL_iff ts url, ?_⟩
  intro hr
  cases hhas : ts.HasTicketWithURL "" with
  | false => rfl
  | true =>
    rcases (hasTicketWithURL_iff ts "").mp hhas with ⟨t, ht, hturl⟩
    exact absurd hturl (reachable_urls_nonempty ts hr t ht)

/-- Witness for C9: a store reached by one validated add has no ticket
with an empty url, and the lookup of its stored url succeeds. -/
theorem hasTicketWithURL_spec_witness :
    (NewTicketStorage.AddTicket "t" "https://e.com/1" 0).HasTicketWithURL "" = false ∧
    (NewTicketStorage.AddTicket "t" "https://e.com/1" 0).HasTicketWithURL "https://e.com/1"
      = true :=
  ⟨(hasTicketWithURL_spec (NewTicketStorage.AddTicket "t" "https://e.com/1" 0) "").2
      (Reachable.add NewTicketStorage "t" "https://e.com/1" 0 Reachable.new (by decide)),
   (hasTicketWithURL_spec (NewTicketStorage.AddTicket "t" "https://e.com/1" 0)
      "https://e.com/1").1.mpr
      ⟨{ ID := 1, Title := "t", URL := "https://e.com/1", CreatedAt := 0 }, by decide, rfl⟩⟩

/-- Loading from a path never reports an error. -/
theorem loadFromPath_no_error (fs : FS) (p : String) :
    (LoadTicketsFromPathWithFS fs p).2 = none := by
  unfold LoadTicketsFromPathWithFS
  cases fs.ReadFile p with
  | none => rfl
  | some d => cases d with
    | doc tks n => rfl
    | raw s => rfl

/-- C2: `load` never returns an error for any filesystem state: a
missing or unreadable primary file and undecodable contents each yield a
fresh store with `NextID = 1` and no tickets, and a decoded document
with `next_id = 0` is coerced to `NextID = 1`. -/
theorem load_never_errors (fs : FS) (filePath : String) :
    (LoadTicketsFromPathWithFS fs filePath).2 = none ∧
    (LoadTicketsWithFS fs).2 = none ∧
    (fs.ReadFile filePath = none →
      (LoadTicketsFromPathWithFS fs filePath).1 = { Tickets := [], NextID := 1 }) ∧
    (∀ s, fs.ReadFile filePath = some (.raw s) →
      (LoadTicketsFromPathWithFS fs filePath).1 = { Tickets := [], NextID := 1 }) ∧
    (∀ tks, fs.ReadFile filePath = some (.doc tks 0) →
      (LoadTicketsFromPathWithFS fs filePath).1 = { Tickets := tks, NextID := 1 }) := by
  refine ⟨loadFromPath_no_error fs filePath, ?_, ?_, ?_, ?_⟩
  · unfold LoadTicketsWithFS
    cases fs.homeDir with
    | none => rfl
    | some home => exact loadFromPath_no_error fs (ticketsPath home)
  · intro h
    simp [LoadTicketsFromPathWithFS, h]
  · intro s h
    simp [LoadTicketsFromPathWithFS, h, unmarshal]
  · intro tks h
    simp [LoadTicketsFromPathWithFS, h, unmarshal]

/-- Witness for C2 at concrete filesystems: undecodable primary contents
and a zero `next_id` document both load without error into the stated
stores. -/
theorem load_never_errors_witness :
    (LoadTicketsFromPathWithFS fsRawPrimary primaryPath).2 = none ∧
    (LoadTicketsFromPathWithFS fsRawPrimary primaryPath).1
      = { Tickets := [], NextID := 1 } ∧
    (LoadTicketsFromPathWithFS fsZeroPrimary primaryPath).1
      = { Tickets := [], NextID := 1 } ∧
    (LoadTicketsFromPathWithFS fsEmptyHome primaryPath).1
      = { Tickets := [], NextID := 1 } :=
  ⟨(load_never_errors fsRawPrimary primaryPath).1,
   (load_never_errors fsRawPrimary primaryPath).2.2.2.1 "not json" (by decide),
   (load_never_errors fsZeroPrimary primaryPath).2.2.2.2 [] (by decide),
   (load_never_errors fsEmptyHome primaryPath).2.2.1 (by decide)⟩

/-- C6 counterexample: a store constructed with `NextID = 0` saves
successfully, but loading the resulting filesystem yields `NextID = 1`
(the load-time coercion), not the saved store's `NextID`. -/
theorem save_load_roundtrip_cex :
    (storeZero.Save fsEmptyHome).toOption.isSome = true ∧
    (LoadTicketsWithFS fsAfterSaveZero).1.NextID ≠ storeZero.NextID := by
  constructor
  · rfl
  · decide

/-- C6 (amended): for every store whose `NextID` is nonzero — every
store constructible through the API — a successful `Save` followed by
`load` reproduces the same tickets (all fields, same order) and the same
`NextID`; the tickets are reproduced even without that proviso. -/
theorem save_load_roundtrip (ts : TicketStorage) (fs fs2 : FS)
    (h : ts.Save fs = .ok fs2) :
    (LoadTicketsWithFS fs2).2 = none ∧
    (LoadTicketsWithFS fs2).1.Tickets = ts.Tickets ∧
    (ts.NextID ≠ 0 → (LoadTicketsWithFS fs2).1.NextID = ts.NextID) := by
  unfold TicketStorage.Save at h
  cases hh : fs.homeDir with
  | none => rw [hh] at h; exact absurd h (by simp)
  | some home =>
    rw [hh] at h
    simp only [] at h
    by_cases hmk : fs.mkdirErr
    · rw [if_pos hmk] at h; exact absurd h (by simp)
    · rw [if_neg hmk] at h
      unfold FS.WriteFile at h
      by_cases hw : fs.writeErr (ticketsPath home)
      · rw [if_pos hw] at h; exact absurd h (by simp)
      · rw [if_neg hw] at h
        simp only [Except.ok.injEq] at h
        subst h
        refine ⟨?_, ?_, ?_⟩
        · simp [LoadTicketsWithFS, LoadTicketsFromPathWithFS, FS.ReadFile, hh,
            List.lookup, marshal, unmarshal]
        · simp [LoadTicketsWithFS, LoadTicketsFromPathWithFS, FS.ReadFile, hh,
            List.lookup, marshal, unmarshal]
        · intro hn
          simp [LoadTicketsWithFS, LoadTicketsFromPathWithFS, FS.ReadFile, hh,
            List.lookup, marshal, unmarshal, hn]

/-- Witness for C6 at a concrete store and filesystem. -/
theorem save_load_roundtrip_witness :
    (LoadTicketsWithFS fsAfterSaveAB).1.Tickets = storeAB.Tickets ∧
    (LoadTicketsWithFS fsAfterSaveAB).1.NextID = storeAB.NextID :=
  ⟨(save_load_roundtrip storeAB fsEmptyHome fsAfterSaveAB rfl).2.1,
   (save_load_roundtrip storeAB fsEmptyHome fsAfterSaveAB rfl).2.2 (by decide)⟩

/-- A successful `ReadFile` entails no injected read fault and the
file's presence. -/
theorem readFile_some (fs : FS) (p : String) (d : FileData)
    (h : fs.ReadFile p = some d) :
    fs.readErr p = false ∧ fs.files.lookup p = some d := by
  unfold FS.ReadFile at h
  by_cases hr : fs.readErr p
  · rw [if_pos hr] at h; exact absurd h (by simp)
  · rw [if_neg hr] at h
    exact ⟨by simpa using hr, h⟩

/-- C7: restoring from a backup name with no backup file errors and
leaves the filesystem (in particular the primary file) unchanged;
restoring from an undecodable backup errors with "backup file is
corrupted" and leaves the filesystem unchanged; and when restore
succeeds, the primary file afterwards holds exactly the backup file's
contents. -/
theorem restoreFromBackup_spec (fs : FS) (home name : String)
    (hh : fs.homeDir = some home) :
    (fs.statExists (joinPath (dataDir home) name) = false →
      (RestoreFromBackupUsing fs name).1 = some ("backup file not found: " ++ name) ∧
      (RestoreFromBackupUsing fs name).2 = fs) ∧
    (∀ s, fs.ReadFile (joinPath (dataDir home) name) = some (.raw s) →
      (RestoreFromBackupUsing fs name).1 = some "backup file is corrupted" ∧
      (RestoreFromBackupUsing fs name).2 = fs) ∧
    (∀ d, fs.ReadFile (joinPath (dataDir home) name) = some d →
      (RestoreFromBackupUsing fs name).1 = none →
      (RestoreFromBackupUsing fs name).2.ReadFile (ticketsPath home) = some d) := by
  refine ⟨?_, ?_, ?_⟩
  · intro habs
    unfold RestoreFromBackupUsing
    rw [hh]
    simp only [habs]
    exact ⟨rfl, rfl⟩
  · intro s hread
    rcases readFile_some fs _ _ hread with ⟨_, hlk⟩
    have hstat : fs.statExists (joinPath (dataDir home) name) = true := by
      simp [FS.statExists, hlk]
    unfold RestoreFromBackupUsing
    rw [hh]
    simp only [hstat, hread, unmarshal]
    exact ⟨rfl, rfl⟩
  · intro d hread hok
    rcases readFile_some fs _ _ hread with ⟨_, hlk⟩
    have hstat : fs.statExists (joinPath (dataDir home) name) = true := by
      simp [FS.statExists, hlk]
    unfold RestoreFromBackupUsing at hok ⊢
    rw [hh] at hok ⊢
    simp only [hstat, hread] at hok ⊢
    cases d with
    | raw s => simp [unmarshal] at hok
    | doc tks n =>
      simp only [unmarshal] at hok ⊢
      unfold FS.WriteFile at hok ⊢
      by_cases hw : fs.writeErr (ticketsPath home)
      · rw [if_pos hw] at hok; simp at hok
      · rw [if_neg hw]
        simp only [FS.ReadFile, List.lookup]
        simp

/-- Witness for C7 at three concrete filesystems: a missing backup, an
undecodable backup, and a valid backup whose restore rewrites the
primary file with the backup's contents. -/
theorem restoreFromBackup_spec_witness :
    ((RestoreFromBackupUsing fsEmptyHome backupName).1
        = some ("backup file not found: " ++ backupName) ∧
      (RestoreFromBackupUsing fsEmptyHome backupName).2 = fsEmptyHome) ∧
    ((RestoreFromBackupUsing fsRawBackup backupName).1 = some "backup file is corrupted" ∧
      (RestoreFromBackupUsing fsRawBackup backupName).2 = fsRawBackup) ∧
    (RestoreFromBackupUsing fsDocBackup backupName).2.ReadFile (ticketsPath "/home/user")
      = some (.doc [] 5) :=
  ⟨(restoreFromBackup_spec fsEmptyHome "/home/user" backupName rfl).1 (by decide),
   (restoreFromBackup_spec fsRawBackup "/home/user" backupName rfl).2.1 "junk" (by decide),
   (restoreFromBackup_spec fsDocBackup "/home/user" backupName rfl).2.2 (.doc [] 5)
     (by decide) (by decide)⟩

end GoTickets
